import Mathlib

/-!
Verification of the redis-ttl scan-and-apply engine.

This file gives a shallow embedding of the repository's Go code:
`Scanner.Run`, `Scanner.wait` and `PrimaryNodesFromClusterNodes` from
`redis.go`, and `config.Err` / `defaultConfig` from the command's config
file.  The external collaborators (the redis store's TTL commands, the
scan iterator, the rate limiter) are modelled as explicit environments:
the iterator as the list of keys it yields followed by an optional
iteration error, the limiter as a per-call response, and the store as an
association list from key to optional remaining TTL with the documented
semantics of EXPIRE / EXPIRE NX / XX / GT / LT / PERSIST.
-/

/-- Go error values relevant to this code base.  Wrapping with
`fmt.Errorf("...: %w", e)` is modelled by a constructor holding the
wrapped error; `errors.Is` is modelled by `GoErr.is`. -/
inductive GoErr : Type
  /-- the package level `errInvalidMode` sentinel -/
  | invalidMode : GoErr
  /-- the command's `errTTL` sentinel -/
  | ttlBase : GoErr
  /-- the command's `errRPS` sentinel -/
  | rpsBase : GoErr
  /-- an opaque error produced by an external collaborator -/
  | lit : String → GoErr
  /-- `fmt.Errorf("[%s] mode %s is not supported: %w", name, mode, errInvalidMode)` -/
  | modeWrap : String → String → GoErr → GoErr
  /-- `fmt.Errorf("iter error: %w", iterErr)` -/
  | iterWrap : GoErr → GoErr
  /-- `fmt.Errorf("invalid desired-ttl value (%s) for mode %s: %w", ttl, mode, errTTL)` -/
  | ttlWrap : Int → String → GoErr → GoErr
  /-- `fmt.Errorf("rps must be greater than 0, got %d: %w", rps, errRPS)` -/
  | rpsWrap : Int → GoErr → GoErr
  /-- `fmt.Errorf("both --redis-addr and --redis-cluster-addrs cannot be empty")` -/
  | addrsEmpty : GoErr
  deriving DecidableEq

/-- Go's `errors.Is`: an error matches a target if it is equal to it or
its wrapping chain reaches it. -/
def GoErr.is : GoErr → GoErr → Bool
  | e, t =>
    decide (e = t) ||
      match e with
      | .modeWrap _ _ i => i.is t
      | .iterWrap i => i.is t
      | .ttlWrap _ _ i => i.is t
      | .rpsWrap _ i => i.is t
      | _ => false

deriving instance DecidableEq for Except

/-- The `Scanner` struct of `redis.go`.  Connection handles are modelled
as opaque identifiers; the injected limiter is modelled by whether one is
present (`hasLimiter`), its responses being supplied by the environment. -/
structure Scanner : Type where
  client : Nat
  scanClient : Option Nat
  mode : String
  scanPref : String
  desiredTTL : Int
  hasLimiter : Bool
  scanType : String
  scanCount : Int
  name : String
  deriving DecidableEq

/-- Environment for one key yielded by the scan iterator: the key, the
limiter's answer to `Wait` for this iteration (used only when a limiter
is configured), and the result of the TTL command issued for the key
(`ok` boolean or error), as returned by the store. -/
structure StepEnv : Type where
  key : String
  waitErr : Option GoErr
  mutRes : Except GoErr Bool
  deriving DecidableEq

/-- Environment of a whole run: the keys the cursor-based iterator
yields, in order, and the iteration error the iterator reports after
them (`none` when the scan ends cleanly).  In go-redis, once the scan
fails, `Next` returns `false` and `Err()` returns the failure, so no
further keys are yielded after the error point. -/
structure ScanEnv : Type where
  steps : List StepEnv
  iterErr : Option GoErr
  deriving DecidableEq

/-- `Scanner.wait`: ask the limiter when one is configured, otherwise
succeed immediately. -/
def Scanner.waitRes (f : Scanner) (w : Option GoErr) : Option GoErr :=
  if f.hasLimiter then w else none

/-- A TTL command issued against the store, with the connection it is
issued on. -/
inductive StoreCmd : Type
  | expireCmd : String → Nat → String → Int → StoreCmd
  | persistCmd : Nat → String → StoreCmd
  deriving DecidableEq

/-- The log lines `Run` emits: the per-key error line
`log.Printf("[%s] expFn error: %v", f.Name, errInvalidMode)` (note the
source passes the constant `errInvalidMode`, not the actual error) and
the applied line `log.Printf("[%s] %s, ttl %s", f.Name, key, ttl)`. -/
inductive LogEvent : Type
  | errLog : String → GoErr → LogEvent
  | appliedLog : String → String → Int → LogEvent
  deriving DecidableEq

/-- Whether a log line is the per-key error line. -/
def LogEvent.isErr : LogEvent → Bool
  | .errLog _ _ => true
  | _ => false

/-- The store command the dispatcher's `fn` issues for a mode: the five
expire variants issue an EXPIRE-family command on `Client`, `persist`
issues PERSIST on `Client`, and `noop` builds a fresh `BoolCmd` without
touching the store. -/
def storeCmdFor (c : Nat) (mode key : String) (ttl : Int) : List StoreCmd :=
  if mode = "noop" then []
  else if mode = "persist" then [.persistCmd c key]
  else [.expireCmd mode c key ttl]

/-- Accumulated observable effects of the scan loop. -/
structure LoopOut : Type where
  /-- the error returned from inside the loop (only `wait` failures) -/
  earlyErr : Option GoErr
  /-- every invocation of the dispatcher function `fn(ctx, key, ttl)` -/
  fnCalls : List (String × Int)
  /-- every store-hitting TTL command attempted -/
  storeCalls : List StoreCmd
  /-- the log lines emitted -/
  logs : List LogEvent
  deriving DecidableEq

/-- The `for iter.Next(ctx)` loop of `Scanner.Run`: per yielded key,
first `f.wait(ctx)` (returning its error aborts the run), then `fn(ctx,
key, f.DesiredTTL).Result()`; a command error is logged (with the
constant `errInvalidMode` as in the source) and the loop continues; an
`ok` result logs the applied line.  For mode `noop` the result is always
`(false, nil)` since `redis.NewBoolCmd(ctx)` carries no error and a
false value. -/
def runLoop (f : Scanner) : List StepEnv → LoopOut
  | [] => ⟨none, [], [], []⟩
  | st :: rest =>
    match f.waitRes st.waitErr with
    | some e => ⟨some e, [], [], []⟩
    | none =>
      let res : Except GoErr Bool := if f.mode = "noop" then .ok false else st.mutRes
      let lg : List LogEvent :=
        match res with
        | .error _ => [.errLog f.name .invalidMode]
        | .ok ok => if ok then [.appliedLog f.name st.key f.desiredTTL] else []
      let out := runLoop f rest
      ⟨out.earlyErr, (st.key, f.desiredTTL) :: out.fnCalls,
        storeCmdFor f.client f.mode st.key f.desiredTTL ++ out.storeCalls,
        lg ++ out.logs⟩

/-- Observable outcome of `Scanner.Run`. -/
structure RunOut : Type where
  /-- the returned error (`.ok ()` when `Run` returns nil) -/
  ret : Except GoErr Unit
  /-- the connection the `ScanType` iteration is issued on -/
  scanClientUsed : Nat
  /-- the connection the TTL mutation commands are issued on (`c := f.Client`) -/
  mutClientUsed : Nat
  fnCalls : List (String × Int)
  storeCalls : List StoreCmd
  logs : List LogEvent
  /-- the scanner value after the run (`Run` may assign `ScanClient`) -/
  scanner : Scanner
  deriving DecidableEq

/-- The keys of the `ttlFuncs` map in `Scanner.Run`. -/
def validModes : List String := ["exp", "gt", "lt", "nx", "xx", "noop", "persist"]

/-- `Scanner.Run`: default `ScanClient` to `Client` when nil (mutating
the scanner), build the iterator on `ScanClient`, look the mode up in
`ttlFuncs` (an unknown mode returns the wrapping of `errInvalidMode`
before the loop runs), run the loop, and finally wrap a pending
iterator error. -/
def Scanner.run (f : Scanner) (env : ScanEnv) : RunOut :=
  let c := f.client
  let scanCl : Nat :=
    match f.scanClient with
    | none => c
    | some sc => sc
  let f' : Scanner := { f with scanClient := some scanCl }
  if f.mode ∈ validModes then
    let out := runLoop f env.steps
    let ret : Except GoErr Unit :=
      match out.earlyErr with
      | some e => .error e
      | none =>
        match env.iterErr with
        | some e => .error (.iterWrap e)
        | none => .ok ()
    ⟨ret, scanCl, c, out.fnCalls, out.storeCalls, out.logs, f'⟩
  else
    ⟨.error (.modeWrap f.name f.mode .invalidMode), scanCl, c, [], [], [], f'⟩

/-! ## Store model

The store is an association list from key to `none` (persistent) or
`some t` (remaining TTL `t`).  The TTL commands follow the documented
redis semantics exercised by the repository's tests: EXPIRE always
applies; NX only without a TTL; XX only with one; GT only when the new
TTL is strictly greater than the current one (a key without TTL counts
as infinite, so GT never applies to it); LT only when strictly less (a
key without TTL counts as infinite, so LT always applies to it); a
non-positive applied TTL deletes the key; PERSIST applies only when a
TTL is present; all commands report not-applied on a missing key. -/

/-- A key's TTL state: `none` is a persistent key, `some t` a remaining
TTL of `t` nanoseconds. -/
abbrev TTLState := Option Int

/-- The database: keys with their TTL state, in iteration order. -/
abbrev Store := List (String × TTLState)

/-- First-match lookup; `none` when the key is absent from the store. -/
def storeLookup : Store → String → Option TTLState
  | [], _ => none
  | (k', v) :: rest, k => if k' = k then some v else storeLookup rest k

/-- Overwrite the TTL state of a key (every entry carrying it). -/
def setTTLAll (st : Store) (k : String) (v : TTLState) : Store :=
  st.map fun p => if p.1 = k then (k, v) else p

/-- Delete a key from the store. -/
def delKeyAll (st : Store) (k : String) : Store :=
  st.filter fun p => decide (p.1 ≠ k)

/-- Whether the TTL command selected by `mode` applies to an existing
key whose current TTL state is `cur`, for desired TTL `d`. -/
def wouldApply (mode : String) (d : Int) (cur : TTLState) : Bool :=
  if mode = "exp" then true
  else if mode = "nx" then cur.isNone
  else if mode = "xx" then cur.isSome
  else if mode = "gt" then
    match cur with
    | none => false
    | some t => decide (t < d)
  else if mode = "lt" then
    match cur with
    | none => true
    | some t => decide (d < t)
  else if mode = "persist" then cur.isSome
  else false

/-- One key's TTL command against the store: the applied report the
command returns and the resulting store.  `noop` touches nothing; a
missing key reports not-applied; an applied expire with non-positive
TTL deletes the key. -/
def stepStore (mode : String) (d : Int) (st : Store) (k : String) : Bool × Store :=
  if mode = "noop" then (false, st)
  else
    match storeLookup st k with
    | none => (false, st)
    | some cur =>
      if wouldApply mode d cur then
        if mode = "persist" then (true, setTTLAll st k none)
        else if d ≤ 0 then (true, delKeyAll st k)
        else (true, setTTLAll st k (some d))
      else (false, st)

/-- A whole run's effect on the store: the scanned keys are processed in
order, each through `stepStore`; returns the per-key applied reports and
the final store. -/
def runStore (mode : String) (d : Int) : List String → Store → List (String × Bool) × Store
  | [], st => ([], st)
  | k :: ks, st =>
    let r := stepStore mode d st k
    let rest := runStore mode d ks r.2
    ((k, r.1) :: rest.1, rest.2)

/-- A key state on which the mode's TTL command would report
not-applied: the key is absent, or present with a TTL state the command
declines. -/
def ttlStable (m : String) (d : Int) : Option TTLState → Bool
  | none => true
  | some cur => ! wouldApply m d cur

/-! ## Topology resolver -/

/-- The characters of the flag word `master`. -/
def masterChars : List Char := ['m', 'a', 's', 't', 'e', 'r']

/-- Drop a trailing carriage return, as `bufio.ScanLines` does. -/
def stripCR (l : List Char) : List Char :=
  if l.getLast? = some '\r' then l.dropLast else l

/-- Accumulating worker for `splitLines`. -/
def splitLinesAux : List Char → List Char → List (List Char)
  | [], cur => if cur.isEmpty then [] else [stripCR cur.reverse]
  | c :: cs, cur =>
    if c = '\n' then stripCR cur.reverse :: splitLinesAux cs []
    else splitLinesAux cs (c :: cur)

/-- The line tokens `bufio.NewScanner` yields over the report text: one
per newline-terminated line, plus a final unterminated line when
present; a trailing newline yields no extra empty token. -/
def splitLines (l : List Char) : List (List Char) := splitLinesAux l []

/-- `strings.Contains(line, "master")`: does `master` occur as a
substring anywhere in the line. -/
def goContainsMaster : List Char → Bool
  | [] => false
  | c :: cs => masterChars.isPrefixOf (c :: cs) || goContainsMaster cs

/-- Split a list at the first occurrence of a character; `none` when the
character does not occur. -/
def breakAt (sep : Char) : List Char → Option (List Char × List Char)
  | [] => none
  | c :: cs =>
    if c = sep then some ([], cs)
    else
      match breakAt sep cs with
      | none => none
      | some (a, b) => some (c :: a, b)

/-- The address the source extracts from a matching line:
`parts := strings.SplitN(line, " ", 3)` followed by
`strings.Split(parts[1], "@")[0]`.  When the line has no space at all,
`parts` has a single element and `parts[1]` is an out-of-range index —
a runtime panic, modelled as `none`. -/
def goAddrOfLine (line : List Char) : Option (List Char) :=
  match breakAt ' ' line with
  | none => none
  | some (_, rest) =>
    let field1 : List Char :=
      match breakAt ' ' rest with
      | none => rest
      | some (a, _) => a
    some
      (match breakAt '@' field1 with
       | none => field1
       | some (a, _) => a)

/-- The loop of `PrimaryNodesFromClusterNodes` over the report's lines:
skip lines not containing `master`, otherwise append the extracted
address; an out-of-range panic (`none` from `goAddrOfLine`) aborts the
whole computation. -/
def primaryLinesGo : List (List Char) → Option (List (List Char))
  | [] => some []
  | line :: rest =>
    if goContainsMaster line then
      match goAddrOfLine line with
      | none => none
      | some addr => (primaryLinesGo rest).map (addr :: ·)
    else primaryLinesGo rest

/-- `PrimaryNodesFromClusterNodes` from `redis.go`: scan the report line
by line, keep every line containing the substring `master`, and extract
`strings.Split(strings.SplitN(line, " ", 3)[1], "@")[0]`.  The result is
`none` when the source would panic (a `master`-containing line with no
space), otherwise `some` of the extracted addresses in line order. -/
def PrimaryNodesFromClusterNodes (s : String) : Option (List String) :=
  (primaryLinesGo (splitLines s.data)).map (List.map fun l => String.mk l)

/-- Accumulating worker for `fieldsWS`. -/
def fieldsWSAux : List Char → List Char → List (List Char)
  | [], acc => if acc.isEmpty then [] else [acc.reverse]
  | c :: cs, acc =>
    if c.isWhitespace then
      if acc.isEmpty then fieldsWSAux cs []
      else acc.reverse :: fieldsWSAux cs []
    else fieldsWSAux cs (c :: acc)

/-- The whitespace-delimited fields of a line (empty fields dropped). -/
def fieldsWS (l : List Char) : List (List Char) := fieldsWSAux l []

/-- Accumulating worker for `splitOnChar`. -/
def splitOnCharAux (sep : Char) : List Char → List Char → List (List Char)
  | [], acc => [acc.reverse]
  | c :: cs, acc =>
    if c = sep then acc.reverse :: splitOnCharAux sep cs []
    else splitOnCharAux sep cs (c :: acc)

/-- Split a list on every occurrence of a character. -/
def splitOnChar (sep : Char) (l : List Char) : List (List Char) :=
  splitOnCharAux sep l []

/-- Spec-side line predicate: the line's third whitespace-delimited
field (the flags field) contains the token `master` among its
comma-separated flags. -/
def specIsMasterLine (line : List Char) : Bool :=
  match fieldsWS line with
  | _ :: _ :: flags :: _ => (splitOnChar ',' flags).contains masterChars
  | _ => false

/-- Spec-side address of a line: the second whitespace-delimited field
with its `@bus-port[,hostname]` suffix stripped. -/
def specAddrOfLine (line : List Char) : List Char :=
  match fieldsWS line with
  | _ :: addr :: _ =>
    (match breakAt '@' addr with
     | none => addr
     | some (a, _) => a)
  | _ => []

/-- Spec contract of the topology resolver, written from the spec's
words: the addresses (`ip:port`, suffixes stripped) of exactly the lines
whose flags field contains the token `master`, in line order. -/
def specPrimaryNodes (s : String) : List String :=
  (((splitLines s.data).filter specIsMasterLine).map specAddrOfLine).map
    fun l => String.mk l

/-! ## Configuration -/

/-- The `config` struct of the command, as in the config file
(`desiredTTL` is the wrapped `time.Duration`, an integer nanosecond
count). -/
structure Config : Type where
  redisAddr : String
  scanPref : String
  mode : String
  desiredTTL : Int
  rps : Int
  redisClusterAddrs : String
  scanType : String
  deriving DecidableEq

/-- `config.Err`: the validation switch — non-positive TTL outside
`persist` mode first, then non-positive rps, then both address fields
empty; `none` when the configuration is accepted. -/
def Config.err (c : Config) : Option GoErr :=
  if c.desiredTTL ≤ 0 ∧ c.mode ≠ "persist" then
    some (.ttlWrap c.desiredTTL c.mode .ttlBase)
  else if c.rps ≤ 0 then some (.rpsWrap c.rps .rpsBase)
  else if c.redisAddr = "" ∧ c.redisClusterAddrs = "" then some .addrsEmpty
  else none

/-- The package's `defaultConfig` value (`desiredTTL` is one hour in
nanoseconds). -/
def defaultConfig : Config :=
  ⟨":6379", "not-found", "noop", 3600 * 1000000000, 100, "", "string"⟩

/-! ## Helper lemmas: the scan loop -/

theorem runLoop_all_ok (f : Scanner) (steps : List StepEnv)
    (hw : ∀ s ∈ steps, f.waitRes s.waitErr = none) :
    (runLoop f steps).earlyErr = none ∧
      (runLoop f steps).fnCalls = steps.map fun s => (s.key, f.desiredTTL) := by
  induction steps with
  | nil => exact ⟨rfl, rfl⟩
  | cons st rest ih =>
    have h1 : f.waitRes st.waitErr = none := hw st (by simp)
    have ih' := ih fun s hs => hw s (by simp [hs])
    simp [runLoop, h1, ih'.1, ih'.2]

theorem runLoop_pre_err (f : Scanner) (pre : List StepEnv) (st : StepEnv)
    (post : List StepEnv) (e : GoErr)
    (hw : ∀ s ∈ pre, f.waitRes s.waitErr = none)
    (hst : f.waitRes st.waitErr = some e) :
    (runLoop f (pre ++ st :: post)).earlyErr = some e ∧
      (runLoop f (pre ++ st :: post)).fnCalls = pre.map fun s => (s.key, f.desiredTTL) := by
  induction pre with
  | nil => simp [runLoop, hst]
  | cons p rest ih =>
    have h1 : f.waitRes p.waitErr = none := hw p (by simp)
    have ih' := ih fun s hs => hw s (by simp [hs])
    simp [runLoop, h1, ih'.1, ih'.2]

theorem runLoop_err_logs (f : Scanner) (steps : List StepEnv) :
    ∀ l ∈ (runLoop f steps).logs, l.isErr = true → l = .errLog f.name .invalidMode := by
  induction steps with
  | nil => intro l hl; simp [runLoop] at hl
  | cons st rest ih =>
    intro l hl hl2
    rw [runLoop] at hl
    rcases hwa : f.waitRes st.waitErr with _ | e
    · rw [hwa] at hl
      simp only at hl
      rcases hr : (if f.mode = "noop" then (Except.ok false : Except GoErr Bool) else st.mutRes)
        with er | b
      · rw [hr] at hl
        simp only [List.mem_append, List.mem_singleton] at hl
        rcases hl with hl | hl
        · exact hl
        · exact ih l hl hl2
      · rw [hr] at hl
        rcases b with _ | _
        · simp only [if_neg Bool.false_ne_true, Bool.false_eq_true, if_false,
            List.nil_append] at hl
          exact ih l hl hl2
        · simp only [if_true, List.mem_append, List.mem_singleton] at hl
          rcases hl with hl | hl
          · rw [hl] at hl2
            simp [LogEvent.isErr] at hl2
          · exact ih l hl hl2
    · rw [hwa] at hl
      simp at hl

theorem runLoop_noop_no_store (f : Scanner) (steps : List StepEnv)
    (hm : f.mode = "noop") : (runLoop f steps).storeCalls = [] := by
  induction steps with
  | nil => rfl
  | cons st rest ih =>
    rw [runLoop]
    rcases hwa : f.waitRes st.waitErr with _ | e
    · simp [storeCmdFor, hm, ih]
    · rfl

theorem GoErr.is_self (e : GoErr) : e.is e = true := by
  cases e <;> simp [GoErr.is]

theorem runStore_noop (d : Int) (ks : List String) (st : Store) :
    runStore "noop" d ks st = (ks.map fun k => (k, false), st) := by
  induction ks with
  | nil => rfl
  | cons k ks ih =>
    have hs : stepStore "noop" d st k = (false, st) := by rw [stepStore]; simp
    simp [runStore, hs, ih]

/-- Claim C1 (counterexample): a run in which the TTL mutation of the
first key errors does not abort under any configuration — the scanner
has no failure-policy field at all — and the run goes on to mutate the
next key, returns nil, and the log line for the failed key records the
constant `errInvalidMode`, not the actual error, so the per-key error is
dropped rather than surfaced under an abort policy. -/
theorem per_key_error_abort_counterexample :
    (Scanner.run ⟨1, none, "exp", "f*", 3600, false, "string", 0, "s1"⟩
        ⟨[⟨"a", none, .error (.lit "boom")⟩, ⟨"b", none, .ok true⟩], none⟩).ret =
      .ok () ∧
    (Scanner.run ⟨1, none, "exp", "f*", 3600, false, "string", 0, "s1"⟩
        ⟨[⟨"a", none, .error (.lit "boom")⟩, ⟨"b", none, .ok true⟩], none⟩).fnCalls =
      [("a", 3600), ("b", 3600)] ∧
    (Scanner.run ⟨1, none, "exp", "f*", 3600, false, "string", 0, "s1"⟩
        ⟨[⟨"a", none, .error (.lit "boom")⟩, ⟨"b", none, .ok true⟩], none⟩).logs =
      [.errLog "s1" .invalidMode, .appliedLog "s1" "b" 3600] := by
  decide

/-- Claim C1 (amended): there is no configuration-time failure policy;
for every scanner with a supported mode and every run whose rate waits
succeed, a per-key mutation error never aborts the run: the dispatcher
is invoked for every yielded key, the run's return value is determined
solely by the iteration error and is unaffected by per-key mutation
errors, and every per-key error log line carries the constant
`errInvalidMode` value in place of the actual error. -/
theorem mutation_error_always_continues (f : Scanner) (env : ScanEnv)
    (hm : f.mode ∈ validModes)
    (hw : ∀ s ∈ env.steps, f.waitRes s.waitErr = none) :
    (f.run env).fnCalls = env.steps.map (fun s => (s.key, f.desiredTTL)) ∧
    (f.run env).ret =
      (match env.iterErr with
       | some e => .error (.iterWrap e)
       | none => .ok ()) ∧
    ∀ l ∈ (f.run env).logs, l.isErr = true → l = .errLog f.name .invalidMode := by
  have hloop := runLoop_all_ok f env.steps hw
  have hlogs := runLoop_err_logs f env.steps
  rw [Scanner.run]
  simp only [if_pos hm]
  exact ⟨hloop.2, by rw [hloop.1], hlogs⟩

theorem mutation_error_always_continues_witness :
    (Scanner.run ⟨1, none, "exp", "f*", 3600, false, "string", 0, "s2"⟩
        ⟨[⟨"a", none, .error (.lit "boom")⟩], none⟩).fnCalls = [("a", 3600)] ∧
    (Scanner.run ⟨1, none, "exp", "f*", 3600, false, "string", 0, "s2"⟩
        ⟨[⟨"a", none, .error (.lit "boom")⟩], none⟩).ret = .ok () ∧
    ∀ l ∈ (Scanner.run ⟨1, none, "exp", "f*", 3600, false, "string", 0, "s2"⟩
        ⟨[⟨"a", none, .error (.lit "boom")⟩], none⟩).logs,
      l.isErr = true → l = .errLog "s2" .invalidMode :=
  mutation_error_always_continues
    ⟨1, none, "exp", "f*", 3600, false, "string", 0, "s2"⟩
    ⟨[⟨"a", none, .error (.lit "boom")⟩], none⟩ (by decide) (by decide)

/-- Claim C4: for every run in which the scan iteration reports an error
mid-scan (the iterator yields its keys and then fails), `Scanner.Run`
returns an error wrapping the iteration error — independently of the
per-key mutation results, there being no per-key failure policy — and
the only mutation calls performed are those for the keys yielded before
the failure, i.e. zero further mutations happen after the point of
failure. -/
theorem iter_error_aborts_run (f : Scanner) (steps : List StepEnv) (e : GoErr)
    (hm : f.mode ∈ validModes)
    (hw : ∀ s ∈ steps, f.waitRes s.waitErr = none) :
    (f.run ⟨steps, some e⟩).ret = .error (.iterWrap e) ∧
    GoErr.is (.iterWrap e) e = true ∧
    (f.run ⟨steps, some e⟩).fnCalls = steps.map fun s => (s.key, f.desiredTTL) := by
  have hloop := runLoop_all_ok f steps hw
  refine ⟨?_, ?_, ?_⟩
  · rw [Scanner.run]
    simp only [if_pos hm]
    rw [hloop.1]
  · rw [GoErr.is]
    simp [GoErr.is_self]
  · rw [Scanner.run]
    simp only [if_pos hm]
    exact hloop.2

theorem iter_error_aborts_run_witness :
    (Scanner.run ⟨1, none, "exp", "f*", 3600, false, "string", 0, "s3"⟩
        ⟨[⟨"a", none, .ok true⟩], some (.lit "scan call failed")⟩).ret =
      .error (.iterWrap (.lit "scan call failed")) ∧
    GoErr.is (.iterWrap (.lit "scan call failed")) (.lit "scan call failed") = true ∧
    (Scanner.run ⟨1, none, "exp", "f*", 3600, false, "string", 0, "s3"⟩
        ⟨[⟨"a", none, .ok true⟩], some (.lit "scan call failed")⟩).fnCalls =
      [("a", 3600)] :=
  iter_error_aborts_run ⟨1, none, "exp", "f*", 3600, false, "string", 0, "s3"⟩
    [⟨"a", none, .ok true⟩] (.lit "scan call failed") (by decide) (by decide)

/-- Claim C5: for every run and every key yielded by the scan, if the
rate governor's `Limiter.Wait` returns an error for that key, the run
aborts immediately returning that specific error, and the TTL mutation
function is invoked only for the keys before it — never for the pending
key or any later key. -/
theorem limiter_error_aborts_before_mutation (f : Scanner) (pre : List StepEnv)
    (st : StepEnv) (post : List StepEnv) (e : GoErr) (ie : Option GoErr)
    (hm : f.mode ∈ validModes)
    (hw : ∀ s ∈ pre, f.waitRes s.waitErr = none)
    (hst : f.waitRes st.waitErr = some e) :
    (f.run ⟨pre ++ st :: post, ie⟩).ret = .error e ∧
    (f.run ⟨pre ++ st :: post, ie⟩).fnCalls = pre.map fun s => (s.key, f.desiredTTL) := by
  have hloop := runLoop_pre_err f pre st post e hw hst
  rw [Scanner.run]
  simp only [if_pos hm]
  exact ⟨by rw [hloop.1], hloop.2⟩

theorem limiter_error_aborts_before_mutation_witness :
    (Scanner.run ⟨1, none, "exp", "f*", 3600, true, "string", 0, "s4"⟩
        ⟨[⟨"a", none, .ok true⟩, ⟨"b", some (.lit "dummy limiter error"), .ok true⟩,
          ⟨"c", none, .ok true⟩], none⟩).ret = .error (.lit "dummy limiter error") ∧
    (Scanner.run ⟨1, none, "exp", "f*", 3600, true, "string", 0, "s4"⟩
        ⟨[⟨"a", none, .ok true⟩, ⟨"b", some (.lit "dummy limiter error"), .ok true⟩,
          ⟨"c", none, .ok true⟩], none⟩).fnCalls = [("a", 3600)] :=
  limiter_error_aborts_before_mutation
    ⟨1, none, "exp", "f*", 3600, true, "string", 0, "s4"⟩
    [⟨"a", none, .ok true⟩] ⟨"b", some (.lit "dummy limiter error"), .ok true⟩
    [⟨"c", none, .ok true⟩] (.lit "dummy limiter error") none
    (by decide) (by decide) (by decide)

/-- Claim C6: a scanner whose mode is not one of the seven supported
policy names (exp, gt, lt, nx, xx, noop, persist) is rejected with an
error wrapping `errInvalidMode` before any key is visited (the
dispatcher is never invoked) or mutated (no store command is issued);
the unknown name is never defaulted to some other policy. -/
theorem invalid_mode_rejected_before_scan (f : Scanner) (env : ScanEnv)
    (hm : f.mode ∉ validModes) :
    (f.run env).ret = .error (.modeWrap f.name f.mode .invalidMode) ∧
    GoErr.is (.modeWrap f.name f.mode .invalidMode) .invalidMode = true ∧
    (f.run env).fnCalls = [] ∧
    (f.run env).storeCalls = [] := by
  rw [Scanner.run]
  simp only [if_neg hm]
  refine ⟨by simp, ?_, by simp, by simp⟩
  rw [GoErr.is]
  simp [GoErr.is_self]

theorem invalid_mode_rejected_before_scan_witness :
    (Scanner.run ⟨1, none, "zx", "f*", 3600, false, "string", 0, "s5"⟩
        ⟨[⟨"foo", none, .ok true⟩], none⟩).ret =
      .error (.modeWrap "s5" "zx" .invalidMode) ∧
    GoErr.is (.modeWrap "s5" "zx" .invalidMode) .invalidMode = true ∧
    (Scanner.run ⟨1, none, "zx", "f*", 3600, false, "string", 0, "s5"⟩
        ⟨[⟨"foo", none, .ok true⟩], none⟩).fnCalls = [] ∧
    (Scanner.run ⟨1, none, "zx", "f*", 3600, false, "string", 0, "s5"⟩
        ⟨[⟨"foo", none, .ok true⟩], none⟩).storeCalls = [] :=
  invalid_mode_rejected_before_scan
    ⟨1, none, "zx", "f*", 3600, false, "string", 0, "s5"⟩
    ⟨[⟨"foo", none, .ok true⟩], none⟩ (by decide)

/-- Claim C10: when `ScanClient` is nil at the start of `Run`, the scan
iteration is issued on the `Client` connection — the same connection the
TTL mutation commands go through — and `Run` records the choice by
assigning `Client` to the scanner's `ScanClient` field. -/
theorem nil_scan_client_defaults_to_client (f : Scanner) (env : ScanEnv)
    (h : f.scanClient = none) :
    (f.run env).scanClientUsed = f.client ∧
    (f.run env).mutClientUsed = f.client ∧
    (f.run env).scanner.scanClient = some f.client := by
  rw [Scanner.run, h]
  by_cases hm : f.mode ∈ validModes
  · simp only [if_pos hm]
    simp
  · simp only [if_neg hm]
    simp

theorem nil_scan_client_defaults_to_client_witness :
    (Scanner.run ⟨7, none, "noop", "f*", 3600, false, "string", 0, "s6"⟩
        ⟨[], none⟩).scanClientUsed = 7 ∧
    (Scanner.run ⟨7, none, "noop", "f*", 3600, false, "string", 0, "s6"⟩
        ⟨[], none⟩).mutClientUsed = 7 ∧
    (Scanner.run ⟨7, none, "noop", "f*", 3600, false, "string", 0, "s6"⟩
        ⟨[], none⟩).scanner.scanClient = some 7 :=
  nil_scan_client_defaults_to_client
    ⟨7, none, "noop", "f*", 3600, false, "string", 0, "s6"⟩ ⟨[], none⟩ rfl

/-- Claim C8: a run with policy `noop` changes no key's TTL for any
input database state and any scanned keys — the final store equals the
input store — every per-key operation reports not-applied, and the run
issues no store-hitting mutation command at all. -/
theorem noop_changes_nothing (d : Int) (ks : List String) (st : Store)
    (f : Scanner) (env : ScanEnv) :
    runStore "noop" d ks st = (ks.map fun k => (k, false), st) ∧
    (Scanner.run { f with mode := "noop" } env).storeCalls = [] := by
  refine ⟨runStore_noop d ks st, ?_⟩
  have hmem : ({ f with mode := "noop" } : Scanner).mode ∈ validModes := by
    simp [validModes]
  rw [Scanner.run]
  simp only [if_pos hmem]
  exact runLoop_noop_no_store _ env.steps rfl

/-! ## Helper lemmas: the store -/

theorem storeLookup_cons (k1 : String) (v1 : TTLState) (rest : Store) (k : String) :
    storeLookup ((k1, v1) :: rest) k = if k1 = k then some v1 else storeLookup rest k := rfl

theorem setTTLAll_cons (k1 : String) (v1 : TTLState) (rest : Store) (k : String)
    (v : TTLState) :
    setTTLAll ((k1, v1) :: rest) k v =
      (if k1 = k then (k, v) else (k1, v1)) :: setTTLAll rest k v := by
  by_cases h : k1 = k <;> simp [setTTLAll, h]

theorem delKeyAll_cons (k1 : String) (v1 : TTLState) (rest : Store) (k : String) :
    delKeyAll ((k1, v1) :: rest) k =
      if k1 = k then delKeyAll rest k else (k1, v1) :: delKeyAll rest k := by
  by_cases h : k1 = k <;> simp [delKeyAll, h]

theorem lookup_setTTLAll_ne (st : Store) (k k' : String) (v : TTLState)
    (h : k' ≠ k) : storeLookup (setTTLAll st k v) k' = storeLookup st k' := by
  induction st with
  | nil => rfl
  | cons p rest ih =>
    rcases p with ⟨k1, v1⟩
    rw [setTTLAll_cons]
    by_cases h1 : k1 = k
    · subst h1
      rw [if_pos rfl, storeLookup_cons, storeLookup_cons,
        if_neg (Ne.symm h), if_neg (Ne.symm h)]
      exact ih
    · rw [if_neg h1, storeLookup_cons, storeLookup_cons]
      by_cases h2 : k1 = k'
      · rw [if_pos h2, if_pos h2]
      · rw [if_neg h2, if_neg h2]
        exact ih

theorem lookup_delKeyAll_ne (st : Store) (k k' : String) (h : k' ≠ k) :
    storeLookup (delKeyAll st k) k' = storeLookup st k' := by
  induction st with
  | nil => rfl
  | cons p rest ih =>
    rcases p with ⟨k1, v1⟩
    rw [delKeyAll_cons]
    by_cases h1 : k1 = k
    · subst h1
      rw [if_pos rfl, storeLookup_cons, if_neg (Ne.symm h)]
      exact ih
    · rw [if_neg h1, storeLookup_cons, storeLookup_cons]
      by_cases h2 : k1 = k'
      · rw [if_pos h2, if_pos h2]
      · rw [if_neg h2, if_neg h2]
        exact ih

theorem lookup_setTTLAll_self (st : Store) (k : String) (v cur : TTLState)
    (h : storeLookup st k = some cur) :
    storeLookup (setTTLAll st k v) k = some v := by
  induction st with
  | nil => simp [storeLookup] at h
  | cons p rest ih =>
    rcases p with ⟨k1, v1⟩
    rw [setTTLAll_cons]
    by_cases h1 : k1 = k
    · rw [if_pos h1, storeLookup_cons, if_pos rfl]
    · rw [storeLookup_cons, if_neg h1] at h
      rw [if_neg h1, storeLookup_cons, if_neg h1]
      exact ih h

theorem lookup_delKeyAll_self (st : Store) (k : String) :
    storeLookup (delKeyAll st k) k = none := by
  induction st with
  | nil => rfl
  | cons p rest ih =>
    rcases p with ⟨k1, v1⟩
    rw [delKeyAll_cons]
    by_cases h1 : k1 = k
    · rw [if_pos h1]
      exact ih
    · rw [if_neg h1, storeLookup_cons, if_neg h1]
      exact ih

theorem stepStore_not_applied (m : String) (d : Int) (st : Store) (k : String)
    (h : (stepStore m d st k).1 = false) : (stepStore m d st k).2 = st := by
  rw [stepStore] at h ⊢
  by_cases hn : m = "noop"
  · rw [if_pos hn]
  · rw [if_neg hn] at h ⊢
    rcases hl : storeLookup st k with _ | cur
    · rfl
    · rw [hl] at h
      dsimp only at h ⊢
      by_cases ha : wouldApply m d cur
      · rw [if_pos ha] at h
        by_cases hp : m = "persist"
        · rw [if_pos hp] at h
          simp at h
        · rw [if_neg hp] at h
          by_cases hd : d ≤ 0
          · rw [if_pos hd] at h
            simp at h
          · rw [if_neg hd] at h
            simp at h
      · rw [if_neg ha] at h ⊢

theorem stepStore_stable (m : String) (d : Int) (st : Store) (k : String)
    (h : ttlStable m d (storeLookup st k) = true) :
    stepStore m d st k = (false, st) := by
  rw [stepStore]
  by_cases hn : m = "noop"
  · rw [if_pos hn]
  · rw [if_neg hn]
    rcases hl : storeLookup st k with _ | cur
    · rfl
    · rw [hl, ttlStable] at h
      simp only [Bool.not_eq_true'] at h
      dsimp only
      rw [if_neg (by simp [h])]

theorem stepStore_frame (m : String) (d : Int) (st : Store) (k k' : String)
    (h : k' ≠ k) : storeLookup (stepStore m d st k).2 k' = storeLookup st k' := by
  rw [stepStore]
  by_cases hn : m = "noop"
  · rw [if_pos hn]
  · rw [if_neg hn]
    rcases hl : storeLookup st k with _ | cur
    · rfl
    · dsimp only
      by_cases ha : wouldApply m d cur
      · rw [if_pos ha]
        by_cases hp : m = "persist"
        · rw [if_pos hp]
          exact lookup_setTTLAll_ne st k k' none h
        · rw [if_neg hp]
          by_cases hd : d ≤ 0
          · rw [if_pos hd]
            exact lookup_delKeyAll_ne st k k' h
          · rw [if_neg hd]
            exact lookup_setTTLAll_ne st k k' (some d) h
      · rw [if_neg ha]

theorem stepStore_applied (m : String) (d : Int) (st : Store) (k : String)
    (hm : m ∈ ["gt", "lt", "nx", "persist", "noop"])
    (h : (stepStore m d st k).1 = true) :
    ttlStable m d (storeLookup (stepStore m d st k).2 k) = true ∧
      storeLookup (stepStore m d st k).2 k ≠ storeLookup st k := by
  by_cases hno : m = "noop"
  · rw [stepStore, if_pos hno] at h
    simp at h
  rw [stepStore, if_neg hno] at h
  rcases hl : storeLookup st k with _ | cur
  · rw [hl] at h
    simp at h
  rw [hl] at h
  dsimp only at h
  by_cases ha : wouldApply m d cur
  swap
  · rw [if_neg ha] at h
    simp at h
  rw [stepStore, if_neg hno, hl]
  dsimp only
  rw [if_pos ha]
  by_cases hp : m = "persist"
  · subst hp
    rw [if_pos rfl]
    dsimp only
    rw [lookup_setTTLAll_self st k none cur hl]
    simp only [wouldApply] at ha
    simp only [if_neg (by decide : ¬ ("persist" : String) = "exp"),
      if_neg (by decide : ¬ ("persist" : String) = "nx"),
      if_neg (by decide : ¬ ("persist" : String) = "xx"),
      if_neg (by decide : ¬ ("persist" : String) = "gt"),
      if_neg (by decide : ¬ ("persist" : String) = "lt"),
      if_pos (rfl : ("persist" : String) = "persist")] at ha
    rcases cur with _ | t
    · simp at ha
    · constructor
      · simp [ttlStable, wouldApply]
      · simp
  · rw [if_neg hp]
    simp only [List.mem_cons, List.mem_singleton, List.not_mem_nil, or_false] at hm
    rcases hm with rfl | rfl | rfl | rfl | rfl
    all_goals first
    | exact absurd rfl hp
    | exact absurd rfl hno
    | (
      by_cases hd : d ≤ 0
      · rw [if_pos hd]
        dsimp only
        rw [lookup_delKeyAll_self st k]
        refine ⟨rfl, ?_⟩
        simp
      · rw [if_neg hd]
        dsimp only
        rw [lookup_setTTLAll_self st k (some d) cur hl]
        simp only [wouldApply] at ha ⊢
        constructor
        · simp [ttlStable, wouldApply]
        · simp only [Ne, Option.some_inj]
          intro he
          rw [← he] at ha
          simp at ha)

theorem runStore_preserves (m : String) (d : Int) (ks : List String) (st : Store)
    (k0 : String) (h : ttlStable m d (storeLookup st k0) = true) :
    storeLookup (runStore m d ks st).2 k0 = storeLookup st k0 := by
  induction ks generalizing st with
  | nil => rfl
  | cons k ks ih =>
    rw [runStore]
    dsimp only
    by_cases hk : k0 = k
    · subst hk
      rw [stepStore_stable m d st k0 h]
      exact ih st h
    · have hf := stepStore_frame m d st k k0 hk
      rw [ih (stepStore m d st k).2 (by rw [hf]; exact h)]
      exact hf

theorem runStore_no_apply (m : String) (d : Int) (ks : List String) (st : Store)
    (hm : m ∈ ["gt", "lt", "nx", "persist", "noop"]) :
    (∀ r ∈ (runStore m d ks st).1, r.2 = false) ∨
      ∃ k0, storeLookup (runStore m d ks st).2 k0 ≠ storeLookup st k0 := by
  induction ks generalizing st with
  | nil =>
    left
    intro r hr
    simp [runStore] at hr
  | cons k ks ih =>
    rcases hap : (stepStore m d st k).1 with _ | _
    · have hst : (stepStore m d st k).2 = st := stepStore_not_applied m d st k hap
      rcases ih st with hall | hne
      · left
        intro r hr
        rw [runStore] at hr
        dsimp only at hr
        rw [hst] at hr
        rcases List.mem_cons.mp hr with hr1 | hr2
        · rw [hr1]
          exact hap
        · exact hall r hr2
      · right
        rcases hne with ⟨k0, hne⟩
        refine ⟨k0, ?_⟩
        rw [runStore]
        dsimp only
        rw [hst]
        exact hne
    · have happ := stepStore_applied m d st k hm hap
      right
      refine ⟨k, ?_⟩
      rw [runStore]
      dsimp only
      rw [runStore_preserves m d ks (stepStore m d st k).2 k happ.1]
      exact happ.2

/-- Claim C9 (counterexample): a job with the unconditional policy `exp`
run against a store already conforming to it (the key's TTL already
equals the desired TTL, so the run leaves the store unchanged) still
reports "applied" for the key — the second run does not report
"not applied" as the claim states for every policy. -/
theorem exp_conforming_applied_counterexample :
    runStore "exp" 3600 ["k"] [("k", some 3600)] =
      ([("k", true)], [("k", some 3600)]) := by decide

/-- Claim C9 (amended): for the conditional policies gt, lt, nx,
persist and noop, running the same job a second time against a store
state the job already conforms to (the run leaves the store unchanged)
performs no further mutation: the store is unchanged and every per-key
operation reports "not applied".  The unconditional policies exp and xx
are excluded: they can report "applied" on a conforming store (see the
counterexample). -/
theorem conforming_second_run_not_applied (m : String) (d : Int) (ks : List String)
    (st : Store) (hm : m ∈ ["gt", "lt", "nx", "persist", "noop"])
    (hfix : (runStore m d ks st).2 = st) :
    (runStore m d ks st).2 = st ∧ ∀ r ∈ (runStore m d ks st).1, r.2 = false := by
  refine ⟨hfix, ?_⟩
  rcases runStore_no_apply m d ks st hm with hall | ⟨k0, hne⟩
  · exact hall
  · rw [hfix] at hne
    exact absurd rfl hne

theorem conforming_second_run_not_applied_witness :
    (runStore "persist" 5 ["k"] [("k", none)]).2 = [("k", none)] ∧
      ∀ r ∈ (runStore "persist" 5 ["k"] [("k", none)]).1, r.2 = false :=
  conforming_second_run_not_applied "persist" 5 ["k"] [("k", none)]
    (by decide) (by decide)

/-! ## Topology resolver theorems -/

/-- Claim C3: the resolver does not tolerate every malformed line — on
the report consisting of the single line `master` (one field, no space),
the line contains the substring `master`, `strings.SplitN` yields a
single part, and the source indexes `parts[1]` out of range: a runtime
panic (modelled as `none`) instead of treating the short line as
non-matching. -/
theorem primary_nodes_short_line_panic :
    PrimaryNodesFromClusterNodes "master" = none := by decide

theorem primaryLinesGo_spec (ls : List (List Char))
    (h : ∀ l ∈ ls, goContainsMaster l = specIsMasterLine l ∧
      (goContainsMaster l = true → goAddrOfLine l = some (specAddrOfLine l))) :
    primaryLinesGo ls = some ((ls.filter specIsMasterLine).map specAddrOfLine) := by
  induction ls with
  | nil => rfl
  | cons l rest ih =>
    have h1 := h l (by simp)
    have ih2 := ih fun x hx => h x (by simp [hx])
    rw [primaryLinesGo]
    by_cases hc : goContainsMaster l
    · rw [if_pos hc, h1.2 hc, ih2]
      rw [List.filter_cons, if_pos (by rw [← h1.1]; exact hc)]
      simp
    · rw [if_neg hc, ih2, List.filter_cons, if_neg (by rw [← h1.1]; simp [hc])]

/-- Claim C2 (counterexample): the source selects lines by a substring
search for `master` over the whole line, not by inspecting the flags
field: a replica line whose master-id field happens to contain
`master` is included by the code, while the spec's flags-token contract
excludes it. -/
theorem primary_nodes_substring_counterexample :
    PrimaryNodesFromClusterNodes
        "b1 10.0.0.1:6379@16379 slave master0aa 0 0 1 connected" =
      some ["10.0.0.1:6379"] ∧
    specPrimaryNodes
        "b1 10.0.0.1:6379@16379 slave master0aa 0 0 1 connected" = [] := by
  decide

/-- Claim C2 (amended): `PrimaryNodesFromClusterNodes` selects lines by
searching for the substring `master` anywhere in the line and extracts
the second space-delimited field up to the first `@`.  On every report
in which, line by line, that substring test agrees with the spec's
flags-field token test and the code's address extraction agrees with the
spec's field extraction — as holds for standard well-formed reports —
it returns exactly the master addresses (`ip:port`, bus-port and
hostname suffixes stripped), one per master line, in input line order,
with replica lines contributing nothing. -/
theorem primary_nodes_match_flags_spec (s : String)
    (h : ∀ l ∈ splitLines s.data,
      goContainsMaster l = specIsMasterLine l ∧
        (goContainsMaster l = true → goAddrOfLine l = some (specAddrOfLine l))) :
    PrimaryNodesFromClusterNodes s = some (specPrimaryNodes s) := by
  rw [PrimaryNodesFromClusterNodes, specPrimaryNodes,
    primaryLinesGo_spec (splitLines s.data) h]
  rfl

theorem primary_nodes_match_flags_spec_witness :
    PrimaryNodesFromClusterNodes
        "a1 1.1.1.1:7000@17000 myself,master - 0 0 1 connected 0-5460\nb1 1.1.1.4:7000@17000 slave a1 0 0 1 connected\na2 1.1.1.2:7000@17000 master - 0 0 2 connected 5461-10922\nb2 1.1.1.5:7000@17000 slave a2 0 0 2 connected\na3 1.1.1.3:7000@17000 master - 0 0 3 connected 10923-16383\nb3 1.1.1.6:7000@17000 slave a3 0 0 3 connected" =
      some (specPrimaryNodes
        "a1 1.1.1.1:7000@17000 myself,master - 0 0 1 connected 0-5460\nb1 1.1.1.4:7000@17000 slave a1 0 0 1 connected\na2 1.1.1.2:7000@17000 master - 0 0 2 connected 5461-10922\nb2 1.1.1.5:7000@17000 slave a2 0 0 2 connected\na3 1.1.1.3:7000@17000 master - 0 0 3 connected 10923-16383\nb3 1.1.1.6:7000@17000 slave a3 0 0 3 connected") ∧
    specPrimaryNodes
        "a1 1.1.1.1:7000@17000 myself,master - 0 0 1 connected 0-5460\nb1 1.1.1.4:7000@17000 slave a1 0 0 1 connected\na2 1.1.1.2:7000@17000 master - 0 0 2 connected 5461-10922\nb2 1.1.1.5:7000@17000 slave a2 0 0 2 connected\na3 1.1.1.3:7000@17000 master - 0 0 3 connected 10923-16383\nb3 1.1.1.6:7000@17000 slave a3 0 0 3 connected" =
      ["1.1.1.1:7000", "1.1.1.2:7000", "1.1.1.3:7000"] :=
  ⟨primary_nodes_match_flags_spec
      "a1 1.1.1.1:7000@17000 myself,master - 0 0 1 connected 0-5460\nb1 1.1.1.4:7000@17000 slave a1 0 0 1 connected\na2 1.1.1.2:7000@17000 master - 0 0 2 connected 5461-10922\nb2 1.1.1.5:7000@17000 slave a2 0 0 2 connected\na3 1.1.1.3:7000@17000 master - 0 0 3 connected 10923-16383\nb3 1.1.1.6:7000@17000 slave a3 0 0 3 connected"
      (by decide),
    by decide⟩

/-! ## Configuration theorems -/

/-- Claim C7 (counterexample): on a configuration whose desired TTL and
rps are both non-positive (mode not `persist`), `config.Err` returns the
TTL error only — the returned error wraps `errTTL` and does not wrap
`errRPS`, so the rps violation is not reported with an error wrapping
`errRPS` as the claim asserts for every such configuration. -/
theorem config_rps_wrap_counterexample :
    Config.err ⟨":6379", "p", "noop", 0, 0, "", "string"⟩ =
      some (.ttlWrap 0 "noop" .ttlBase) ∧
    GoErr.is (.ttlWrap 0 "noop" .ttlBase) .rpsBase = false := by decide

/-- Claim C7 (amended): `config.Err` rejects every configuration with a
non-positive desired TTL outside `persist` mode with an error wrapping
`errTTL`; it rejects every configuration with a non-positive rps limit
(returning a non-nil error), and that error wraps `errRPS` precisely
when the TTL check passes — when both violations are present the single
returned error wraps `errTTL` only; the default configuration is
accepted. -/
theorem config_err_validation :
    (∀ c : Config, c.desiredTTL ≤ 0 → c.mode ≠ "persist" →
      ∃ e, c.err = some e ∧ e.is .ttlBase = true) ∧
    (∀ c : Config, c.rps ≤ 0 → c.err ≠ none) ∧
    (∀ c : Config, c.rps ≤ 0 → ¬(c.desiredTTL ≤ 0 ∧ c.mode ≠ "persist") →
      ∃ e, c.err = some e ∧ e.is .rpsBase = true) ∧
    defaultConfig.err = none := by
  refine ⟨?_, ?_, ?_, by decide⟩
  · intro c h1 h2
    refine ⟨.ttlWrap c.desiredTTL c.mode .ttlBase, ?_, ?_⟩
    · rw [Config.err, if_pos ⟨h1, h2⟩]
    · rw [GoErr.is]
      simp [GoErr.is_self]
  · intro c hr
    rw [Config.err]
    by_cases h1 : c.desiredTTL ≤ 0 ∧ c.mode ≠ "persist"
    · rw [if_pos h1]
      simp
    · rw [if_neg h1, if_pos hr]
      simp
  · intro c hr h1
    refine ⟨.rpsWrap c.rps .rpsBase, ?_, ?_⟩
    · rw [Config.err, if_neg h1, if_pos hr]
    · rw [GoErr.is]
      simp [GoErr.is_self]

theorem config_err_validation_witness :
    (∃ e, Config.err ⟨":6379", "p", "noop", 0, 5, "", "string"⟩ = some e ∧
      e.is .ttlBase = true) ∧
    Config.err ⟨":6379", "p", "persist", 0, 0, "", "string"⟩ ≠ none ∧
    (∃ e, Config.err ⟨":6379", "p", "persist", 0, 0, "", "string"⟩ = some e ∧
      e.is .rpsBase = true) :=
  ⟨config_err_validation.1 ⟨":6379", "p", "noop", 0, 5, "", "string"⟩
      (by decide) (by decide),
    config_err_validation.2.1 ⟨":6379", "p", "persist", 0, 0, "", "string"⟩
      (by decide),
    config_err_validation.2.2.1 ⟨":6379", "p", "persist", 0, 0, "", "string"⟩
      (by decide) (by decide)⟩
